import Mathlib

/-!
Verification of the DirectSound audio sink ring-buffer writer
(`sys/directsound/gstdirectsoundsink.c`).

The development shallowly embeds the state and the four operations the
claims are about: the circular write path `gst_directsound_sink_write`
(lines 381–469), the queued-samples query `gst_directsound_sink_delay`
(lines 471–505), `gst_directsound_sink_reset` (lines 507–543) and the
buffer-capacity computation of `gst_directsound_sink_prepare`
(lines 305–319).

The hardware (DirectSound secondary buffer) is an external collaborator:
its responses — play-cursor reads, status words, success of lock calls —
are explicit inputs to the embedded functions.  The unbounded `goto`
retry loop of the write path is driven by the finite list of retry
observations supplied in the environment; if the list runs out while the
write is still blocked the embedding returns `none` (the real code would
keep sleeping), so every theorem about a completed write is conditioned
on a `some` result.
-/

namespace DirectSoundSink

/-- Status word returned by the hardware GetStatus call: the
DSBSTATUS_PLAYING and DSBSTATUS_BUFFERLOST bits. -/
structure Status where
  playing : Bool
  lost : Bool
deriving Repr, DecidableEq

/-- The sink state the embedded operations touch: the fields
`current_circular_offset`, `buffer_size`, `bytes_per_sample` and
`first_buffer_after_reset` of `GstDirectSoundSink`. -/
structure Sink where
  current_circular_offset : Nat
  buffer_size : Nat
  bytes_per_sample : Nat
  first_buffer_after_reset : Bool
deriving Repr, DecidableEq

/-- Modelled from the spec: the hardware-buffer state that
`buffer.stop()` / `buffer.play()` / `buffer.setCurrentPosition()` act on
(consumed interfaces of the spec, section 6; their implementation is not
in the repository).  `playing` is the bit reported by GetStatus, and
`position` the hardware cursor that `setCurrentPosition` rewinds. -/
structure Hw where
  playing : Bool
  position : Nat
deriving Repr, DecidableEq

/-- One retry observation for the poll loop of the write path (lines
416–421): the re-read play cursor, whether the GetStatus call at line
420 succeeded, and the status word it reported. -/
structure RetryObs where
  cursor : Nat
  statusOk : Bool
  status : Status
deriving Repr, DecidableEq

/-- The hardware responses a single write call consumes: success of the
initial GetCurrentPosition (line 399), the initial cursor and status
word (lines 396–400), the retry observations for the poll loop, and
whether the Lock call at line 438 succeeds. -/
structure WriteEnv where
  posOk : Bool
  cursor0 : Nat
  status0 : Status
  retries : List RetryObs
  lockOk : Bool
deriving Repr, DecidableEq

/-- Result of one write call: the returned byte count, the sink state at
return, whether the memcpy block (lines 443–449) ran, whether
IDirectSoundBuffer_Play was invoked (lines 458–462), and the
BUFFERLOST bit of the status word governing the lost-recovery branch
(line 432). -/
structure WriteRet where
  ret : Nat
  sink : Sink
  copied : Bool
  playCalled : Bool
  stLost : Bool
deriving Repr, DecidableEq

/-- How the write's poll loop ended: fell through to the lock phase with
a final status word, abandoned the write (returns 0, lines 424–427), or
— a model artifact — ran out of supplied retry observations while still
blocked. -/
inductive LoopExit where
  | fallThrough (st : Status)
  | abandon
  | stuck
deriving Repr, DecidableEq

/-- Free space of the circular buffer as computed at lines 405–413:
`if (dwCurrentPlayCursor < current_circular_offset) free = buffer_size -
(current_circular_offset - dwCurrentPlayCursor); else free =
dwCurrentPlayCursor - current_circular_offset`. -/
def dwFreeBufferSize (cursor offset cap : Nat) : Nat :=
  if cursor < offset then cap - (offset - cursor) else cursor - offset

/-- The `calculate_freesize` goto loop (lines 405–429): while
`length >= dwFreeBufferSize`, consume one retry observation; if it
reports success and still-playing, recompute with the new cursor and
status, otherwise abandon.  When `length < dwFreeBufferSize` the loop
falls through carrying the current status word. -/
def pollLoop (length cap offset : Nat) : Nat → Status → List RetryObs → LoopExit
  | cursor, st, obs =>
    if dwFreeBufferSize cursor offset cap ≤ length then
      match obs with
      | [] => LoopExit.stuck
      | o :: rest =>
        if o.statusOk && o.status.playing then
          pollLoop length cap offset o.cursor o.status rest
        else
          LoopExit.abandon
    else
      LoopExit.fallThrough st

/-- Modelled from the spec: `buffer.lock(offset, length)` of the
consumed hardware interface (spec section 6; the hardware implementation
is not in the repository) splits the request at the capacity boundary —
region 1 runs from `offset` to the end of the buffer or the end of the
request, region 2 holds the remainder wrapped to the start.  Returns
`(region1Size, region2Size)`. -/
def lockRegions (offset length cap : Nat) : Nat × Nat :=
  (min length (cap - offset), length - min length (cap - offset))

/-- The two memcpy calls at lines 444–446: the first `size1` input bytes
go to region 1 and the next `size2` bytes to region 2.  Returns the
byte lists written to the two regions. -/
def copyRegions (data : List Nat) (size1 size2 : Nat) : List Nat × List Nat :=
  (data.take size1, (data.drop size1).take size2)

/-- Sink state after the BUFFERLOST recovery branch (lines 432–436):
a lost buffer is restored and `current_circular_offset` reset to 0. -/
def afterLost (s : Sink) (st : Status) : Sink :=
  if st.lost then { s with current_circular_offset := 0 } else s

/-- Sink state after the lock/copy/advance block (lines 438–454): on a
successful lock the offset advances by `dwSizeBuffer1 + dwSizeBuffer2`
and is reduced modulo `buffer_size` (lines 449–450); on a failed lock
nothing in the block runs. -/
def afterLock (s : Sink) (env : WriteEnv) (length : Nat) (st : Status) : Sink :=
  if env.lockOk then
    { afterLost s st with
      current_circular_offset :=
        ((afterLost s st).current_circular_offset +
          ((lockRegions (afterLost s st).current_circular_offset length
              (afterLost s st).buffer_size).1 +
           (lockRegions (afterLost s st).current_circular_offset length
              (afterLost s st).buffer_size).2)) %
          (afterLost s st).buffer_size }
  else afterLost s st

/-- The tail of the write call after the poll loop has ended.  On
abandonment (lines 424–427) the flag is cleared and 0 is returned with
the offset untouched.  On fall-through the lost-recovery, lock/copy and
play-trigger blocks run (lines 432–468); note the C function returns
`length` at line 468 whether or not the lock succeeded, and Play is
called exactly when the final status word lacks PLAYING and
`first_buffer_after_reset` is FALSE (lines 458–462). -/
def writeFromExit (s : Sink) (length : Nat) (env : WriteEnv) : LoopExit → Option WriteRet
  | LoopExit.stuck => none
  | LoopExit.abandon =>
      some ⟨0, { s with first_buffer_after_reset := false }, false, false, false⟩
  | LoopExit.fallThrough st =>
      some ⟨length,
        { afterLock s env length st with first_buffer_after_reset := false },
        env.lockOk,
        !st.playing && !s.first_buffer_after_reset,
        st.lost⟩

/-- The poll-loop phase of the write call: the loop is entered only when
the initial GetCurrentPosition succeeded and the initial status word has
PLAYING set (line 402); otherwise execution falls straight through with
the initial status word. -/
def writeExit (s : Sink) (length : Nat) (env : WriteEnv) : LoopExit :=
  if env.posOk && env.status0.playing then
    pollLoop length s.buffer_size s.current_circular_offset env.cursor0 env.status0 env.retries
  else
    LoopExit.fallThrough env.status0

/-- Embedding of `gst_directsound_sink_write` (lines 381–469). -/
def gst_directsound_sink_write (s : Sink) (length : Nat) (env : WriteEnv) :
    Option WriteRet :=
  writeFromExit s length env (writeExit s length env)

/-- Embedding of `gst_directsound_sink_delay` (lines 471–505).
`posOk` is whether GetCurrentPosition returned S_OK (line 491); the
result counter starts at 0 and is only assigned when the buffer is
playing and the position query succeeded. -/
def gst_directsound_sink_delay (s : Sink) (hw : Hw) (posOk : Bool) (cursor : Nat) : Nat :=
  if hw.playing then
    if posOk then
      (if cursor < s.current_circular_offset then
        s.current_circular_offset - cursor
      else
        s.current_circular_offset + (s.buffer_size - cursor)) / s.bytes_per_sample
    else 0
  else 0

/-- Embedding of `gst_directsound_sink_reset` (lines 507–543): Stop the
buffer, rewind the hardware cursor and `current_circular_offset` to 0,
zero-fill the whole buffer, and set `first_buffer_after_reset` to TRUE.
The C function returns void and ignores every HRESULT, so the embedding
is a total function with no error outcome. -/
def gst_directsound_sink_reset (s : Sink) (hw : Hw) : Sink × Hw :=
  ({ s with current_circular_offset := 0, first_buffer_after_reset := true },
   { hw with playing := false, position := 0 })

/-- Buffer capacity as computed at lines 309–319 of
`gst_directsound_sink_prepare`: `wfx.nSamplesPerSec = spec->rate` (a
DWORD, 32-bit unsigned), `wfx.nBlockAlign = spec->bytes_per_sample` (a
WORD, 16-bit unsigned), `wfx.nAvgBytesPerSec = nSamplesPerSec *
nBlockAlign` in 32-bit unsigned arithmetic, and `buffer_size =
nAvgBytesPerSec / 2`. -/
def prepare_buffer_size (rate bytes_per_sample : Nat) : Nat :=
  ((rate % 2 ^ 32) * (bytes_per_sample % 2 ^ 16) % 2 ^ 32) / 2

/-- Embedding of the state effect of `gst_directsound_sink_prepare`
(lines 297–351) on the sink fields the claims concern: it saves
`bytes_per_sample` (line 306) and computes `buffer_size` (line 319).
The channel count enters `wBitsPerSample` only, not the capacity. -/
def gst_directsound_sink_prepare (s : Sink) (channels rate bytes_per_sample : Nat) : Sink :=
  { s with
    bytes_per_sample := bytes_per_sample,
    buffer_size := prepare_buffer_size rate bytes_per_sample }

/-- The free-space formula in the words of the spec: "if cursor <
write_offset, free = capacity − (write_offset − cursor); else free =
cursor − write_offset". -/
def freeSpaceSpec (cursor write_offset capacity : Nat) : Nat :=
  if cursor < write_offset then capacity - (write_offset - cursor)
  else cursor - write_offset

/-- The delay result in the words of the claim: 0 when not playing or
when the position query fails, otherwise the queued byte count —
write_offset − cursor if cursor < write_offset, else write_offset +
(capacity − cursor) — floor-divided by bytes_per_sample. -/
def delaySpec (playing posOk : Bool) (cursor write_offset capacity bps : Nat) : Nat :=
  if playing = false ∨ posOk = false then 0
  else
    (if cursor < write_offset then write_offset - cursor
     else write_offset + (capacity - cursor)) / bps

theorem lockRegions_sum (offset length cap : Nat) :
    (lockRegions offset length cap).1 + (lockRegions offset length cap).2 = length := by
  simp only [lockRegions]
  omega

theorem afterLost_buffer_size (s : Sink) (st : Status) :
    (afterLost s st).buffer_size = s.buffer_size := by
  unfold afterLost; split <;> rfl

theorem afterLost_offset (s : Sink) (st : Status) :
    (afterLost s st).current_circular_offset =
      if st.lost then 0 else s.current_circular_offset := by
  unfold afterLost; split <;> simp_all

theorem afterLock_buffer_size (s : Sink) (env : WriteEnv) (length : Nat) (st : Status) :
    (afterLock s env length st).buffer_size = s.buffer_size := by
  unfold afterLock; split <;> simp [afterLost_buffer_size]

theorem afterLock_offset_lt (s : Sink) (env : WriteEnv) (length : Nat) (st : Status)
    (hcap : 0 < s.buffer_size) (hoff : s.current_circular_offset < s.buffer_size) :
    (afterLock s env length st).current_circular_offset < s.buffer_size := by
  unfold afterLock
  split
  · simp only [afterLost_buffer_size]
    exact Nat.mod_lt _ hcap
  · rw [afterLost_offset]
    split
    · exact hcap
    · exact hoff

theorem afterLock_offset_copied (s : Sink) (env : WriteEnv) (length : Nat) (st : Status)
    (hlock : env.lockOk = true) :
    (afterLock s env length st).current_circular_offset =
      ((if st.lost then 0 else s.current_circular_offset) + length) % s.buffer_size := by
  unfold afterLock
  rw [if_pos hlock]
  simp [lockRegions_sum, afterLost_buffer_size, afterLost_offset]

theorem write_flag_cleared (s : Sink) (length : Nat) (env : WriteEnv) (r : WriteRet)
    (hwr : gst_directsound_sink_write s length env = some r) :
    r.sink.first_buffer_after_reset = false := by
  rw [gst_directsound_sink_write] at hwr
  rcases hexit : writeExit s length env with st | _ | _ <;> rw [hexit] at hwr <;>
    simp only [writeFromExit] at hwr
  · obtain rfl := Option.some.inj hwr
    rfl
  · obtain rfl := Option.some.inj hwr
    rfl
  · exact absurd hwr (by simp)

theorem write_not_playing_result (s : Sink) (length : Nat) (env : WriteEnv)
    (hplay : env.status0.playing = false) :
    gst_directsound_sink_write s length env =
      some ⟨length,
        { afterLock s env length env.status0 with first_buffer_after_reset := false },
        env.lockOk, !s.first_buffer_after_reset, env.status0.lost⟩ := by
  rw [gst_directsound_sink_write]
  unfold writeExit
  rw [if_neg (by simp [hplay])]
  simp [writeFromExit, hplay]

theorem pollLoop_abandon_append (length cap offset : Nat) (pre : List RetryObs)
    (o : RetryObs) (rest : List RetryObs) :
    ∀ (cursor : Nat) (st : Status),
      dwFreeBufferSize cursor offset cap ≤ length →
      (∀ p ∈ pre, p.statusOk = true ∧ p.status.playing = true ∧
        dwFreeBufferSize p.cursor offset cap ≤ length) →
      o.statusOk = true → o.status.playing = false →
      pollLoop length cap offset cursor st (pre ++ o :: rest) = LoopExit.abandon := by
  induction pre with
  | nil =>
    intro cursor st hb _ hok hstop
    unfold pollLoop
    rw [if_pos hb]
    simp [hok, hstop]
  | cons p pre ih =>
    intro cursor st hb hpre hok hstop
    have hp := hpre p (List.mem_cons_self p pre)
    rw [List.cons_append]
    unfold pollLoop
    rw [if_pos hb]
    simp only [hp.1, hp.2.1, Bool.and_self, if_true]
    exact ih p.cursor p.status hp.2.2
      (fun q hq => hpre q (List.mem_cons_of_mem p hq)) hok hstop

theorem write_abandon_eq (s : Sink) (length : Nat) (env : WriteEnv)
    (pre : List RetryObs) (o : RetryObs) (rest : List RetryObs)
    (hpos : env.posOk = true) (hplay : env.status0.playing = true)
    (hblocked : dwFreeBufferSize env.cursor0 s.current_circular_offset s.buffer_size ≤ length)
    (hpre : ∀ p ∈ pre, p.statusOk = true ∧ p.status.playing = true ∧
      dwFreeBufferSize p.cursor s.current_circular_offset s.buffer_size ≤ length)
    (hretries : env.retries = pre ++ o :: rest)
    (hok : o.statusOk = true) (hstop : o.status.playing = false) :
    gst_directsound_sink_write s length env =
      some ⟨0, { s with first_buffer_after_reset := false }, false, false, false⟩ := by
  rw [gst_directsound_sink_write]
  unfold writeExit
  rw [if_pos (by simp [hpos, hplay]), hretries]
  rw [pollLoop_abandon_append length s.buffer_size s.current_circular_offset pre o rest
    env.cursor0 env.status0 hblocked hpre hok hstop]
  rfl

/-- Claim C1: every write call that copies data into the hardware buffer
advances the write offset by exactly the number of bytes copied, modulo
the buffer capacity, and after every operation — any completed write
(including abandoned ones and buffer-lost recovery) and reset — the
write offset lies in `[0, buffer_size)`. -/
theorem write_offset_advance_mod (s : Sink) (length : Nat) (env : WriteEnv)
    (r : WriteRet) (hcap : 0 < s.buffer_size)
    (hoff : s.current_circular_offset < s.buffer_size)
    (hwr : gst_directsound_sink_write s length env = some r) :
    r.sink.buffer_size = s.buffer_size ∧
    r.sink.current_circular_offset < s.buffer_size ∧
    (r.copied = true →
      r.sink.current_circular_offset =
        ((if r.stLost then 0 else s.current_circular_offset) + length) %
          s.buffer_size) ∧
    ∀ hwst : Hw, (gst_directsound_sink_reset s hwst).1.current_circular_offset = 0 := by
  rw [gst_directsound_sink_write] at hwr
  rcases hexit : writeExit s length env with st | _ | _ <;> rw [hexit] at hwr <;>
    simp only [writeFromExit] at hwr
  · obtain rfl := Option.some.inj hwr
    refine ⟨afterLock_buffer_size s env length st, ?_, ?_, fun hwst => rfl⟩
    · exact afterLock_offset_lt s env length st hcap hoff
    · intro hcopied
      exact afterLock_offset_copied s env length st hcopied
  · obtain rfl := Option.some.inj hwr
    exact ⟨rfl, hoff, fun hcopied => absurd hcopied (by simp), fun hwst => rfl⟩
  · exact absurd hwr (by simp)

theorem write_offset_advance_mod_witness :
    (⟨4, ⟨4, 10, 2, false⟩, true, true, false⟩ : WriteRet).sink.current_circular_offset
      < 10 :=
  (write_offset_advance_mod ⟨0, 10, 2, false⟩ 4 ⟨true, 0, ⟨false, false⟩, [], true⟩
    ⟨4, ⟨4, 10, 2, false⟩, true, true, false⟩ (by decide) (by decide) (by decide)).2.1

/-- Claim C2 counterexample: a write whose hardware lock fails (here the
buffer is not playing, not lost, `lockOk = false`) copies nothing and
leaves the offset alone, yet returns 4 — the requested length — and not
the 0 bytes the claim demands. -/
theorem write_lock_failure_returns_length_cex :
    gst_directsound_sink_write ⟨0, 10, 2, false⟩ 4
        ⟨true, 0, ⟨false, false⟩, [], false⟩ =
      some ⟨4, ⟨0, 10, 2, false⟩, false, true, false⟩ ∧ (4 : Nat) ≠ 0 :=
  ⟨rfl, by decide⟩

/-- Claim C2 (amended): for every write call in which the hardware lock
operation fails — every call that reaches the Lock, whether it skipped
the poll loop or blocked and fell through with final status word `st` —
no data is copied and the write offset is not advanced; it is changed
only by the buffer-lost recovery reset to 0.  But the call returns
`length`, not 0 bytes written. -/
theorem write_lock_failure_amended (s : Sink) (length : Nat) (env : WriteEnv)
    (st : Status) (hlock : env.lockOk = false)
    (hexit : writeExit s length env = LoopExit.fallThrough st) :
    gst_directsound_sink_write s length env =
      some ⟨length,
        { s with
          current_circular_offset :=
            if st.lost then 0 else s.current_circular_offset,
          first_buffer_after_reset := false },
        false, !st.playing && !s.first_buffer_after_reset,
        st.lost⟩ := by
  rw [gst_directsound_sink_write, hexit]
  cases hl : st.lost <;>
    simp [writeFromExit, afterLock, afterLost, hlock, hl]

theorem write_lock_failure_amended_witness :
    gst_directsound_sink_write ⟨2, 10, 2, false⟩ 4
        ⟨true, 2, ⟨true, false⟩, [⟨9, true, ⟨true, false⟩⟩], false⟩ =
      some ⟨4, ⟨2, 10, 2, false⟩, false, false, false⟩ := by
  have h := write_lock_failure_amended ⟨2, 10, 2, false⟩ 4
    ⟨true, 2, ⟨true, false⟩, [⟨9, true, ⟨true, false⟩⟩], false⟩
    ⟨true, false⟩ rfl (by decide)
  simpa using h

/-- Claim C3: the free space used in the blocking check of the write
path is computed as — if the play cursor is less than the write offset,
free = capacity − (write_offset − cursor); otherwise free = cursor −
write_offset — and a write strictly smaller than that free space passes
the check without any retry. -/
theorem free_space_formula (cursor offset cap length : Nat) (st : Status)
    (obs : List RetryObs) :
    dwFreeBufferSize cursor offset cap = freeSpaceSpec cursor offset cap ∧
    (length < dwFreeBufferSize cursor offset cap →
      pollLoop length cap offset cursor st obs = LoopExit.fallThrough st) := by
  refine ⟨rfl, fun h => ?_⟩
  unfold pollLoop
  rw [if_neg (by omega)]

theorem free_space_formula_witness :
    dwFreeBufferSize 3 7 10 = freeSpaceSpec 3 7 10 ∧
    pollLoop 2 10 7 3 ⟨true, false⟩ [] = LoopExit.fallThrough ⟨true, false⟩ :=
  ⟨(free_space_formula 3 7 10 2 ⟨true, false⟩ []).1,
   (free_space_formula 3 7 10 2 ⟨true, false⟩ []).2 (by decide)⟩

/-- Claim C4: a write that entered the blocking poll loop (length at
least the current free space) and whose status re-read at any retry —
after an arbitrary run of retries that stayed playing and still blocked
— reports the buffer no longer playing is abandoned: it returns 0 bytes
written, copies nothing, and leaves the offset unchanged. -/
theorem write_abandoned_on_stop (s : Sink) (length : Nat) (env : WriteEnv)
    (pre : List RetryObs) (o : RetryObs) (rest : List RetryObs)
    (hpos : env.posOk = true) (hplay : env.status0.playing = true)
    (hblocked :
      dwFreeBufferSize env.cursor0 s.current_circular_offset s.buffer_size ≤ length)
    (hpre : ∀ p ∈ pre, p.statusOk = true ∧ p.status.playing = true ∧
      dwFreeBufferSize p.cursor s.current_circular_offset s.buffer_size ≤ length)
    (hretries : env.retries = pre ++ o :: rest)
    (hok : o.statusOk = true) (hstop : o.status.playing = false) :
    gst_directsound_sink_write s length env =
      some ⟨0, { s with first_buffer_after_reset := false }, false, false, false⟩ :=
  write_abandon_eq s length env pre o rest hpos hplay hblocked hpre hretries hok hstop

theorem write_abandoned_on_stop_witness :
    gst_directsound_sink_write ⟨5, 10, 2, true⟩ 4
        ⟨true, 5, ⟨true, false⟩,
          [⟨7, true, ⟨true, false⟩⟩, ⟨7, true, ⟨false, false⟩⟩], true⟩ =
      some ⟨0, ⟨5, 10, 2, false⟩, false, false, false⟩ :=
  write_abandoned_on_stop ⟨5, 10, 2, true⟩ 4
    ⟨true, 5, ⟨true, false⟩,
      [⟨7, true, ⟨true, false⟩⟩, ⟨7, true, ⟨false, false⟩⟩], true⟩
    [⟨7, true, ⟨true, false⟩⟩] ⟨7, true, ⟨false, false⟩⟩ []
    rfl rfl (by decide) (by decide) rfl rfl rfl

/-- Claim C5: a successful write of N bytes whose locked region wraps
past the capacity boundary is returned by the hardware as two regions
with region1Size + region2Size = N (region 2 nonempty), the input's
first region1Size bytes are copied into region 1 and the rest into
region 2, and concatenating region 1 then region 2 reproduces the input
byte-for-byte. -/
theorem wraparound_write_regions (data : List Nat) (offset N cap : Nat)
    (hlen : data.length = N) (hoff : offset < cap) (hNcap : N ≤ cap)
    (hwrap : cap < offset + N) :
    (lockRegions offset N cap).1 + (lockRegions offset N cap).2 = N ∧
    0 < (lockRegions offset N cap).2 ∧
    (copyRegions data (lockRegions offset N cap).1 (lockRegions offset N cap).2).1 ++
      (copyRegions data (lockRegions offset N cap).1 (lockRegions offset N cap).2).2 =
      data := by
  refine ⟨lockRegions_sum offset N cap, ?_, ?_⟩
  · simp only [lockRegions]
    omega
  · simp only [copyRegions, lockRegions]
    rw [← List.take_add]
    have hsum : min N (cap - offset) + (N - min N (cap - offset)) = N := by omega
    rw [hsum, ← hlen, List.take_length]

theorem wraparound_write_regions_witness :
    (lockRegions 3 4 5).1 + (lockRegions 3 4 5).2 = 4 ∧
    0 < (lockRegions 3 4 5).2 ∧
    (copyRegions [1, 2, 3, 4] (lockRegions 3 4 5).1 (lockRegions 3 4 5).2).1 ++
      (copyRegions [1, 2, 3, 4] (lockRegions 3 4 5).1 (lockRegions 3 4 5).2).2 =
      [1, 2, 3, 4] :=
  wraparound_write_regions [1, 2, 3, 4] 3 4 5 rfl (by decide) (by decide) (by decide)

/-- Claim C6: the delay query returns 0 when the buffer is not playing
or when the position query fails; otherwise it returns the queued byte
count — write_offset − cursor if cursor < write_offset, else
write_offset + (capacity − cursor) — floor-divided by bytes_per_sample. -/
theorem delay_formula (s : Sink) (hw : Hw) (posOk : Bool) (cursor : Nat) :
    gst_directsound_sink_delay s hw posOk cursor =
      delaySpec hw.playing posOk cursor s.current_circular_offset s.buffer_size
        s.bytes_per_sample := by
  cases h1 : hw.playing <;> cases h2 : posOk <;>
    simp [gst_directsound_sink_delay, delaySpec, h1, h2]

/-- Claim C7: reset is idempotent and unconditionally succeeds — the
embedded reset is a total function with no error outcome, mirroring the
void C function that ignores every HRESULT — and after one call, and
equally after two consecutive calls, the write offset is 0, the
queued-sample count reported by the delay query is 0 (the buffer is
stopped), and the first-write-after-reset flag is true. -/
theorem reset_idempotent (s : Sink) (hw : Hw) :
    ((gst_directsound_sink_reset s hw).1.current_circular_offset = 0 ∧
      (gst_directsound_sink_reset s hw).1.first_buffer_after_reset = true ∧
      ∀ (posOk : Bool) (cursor : Nat),
        gst_directsound_sink_delay (gst_directsound_sink_reset s hw).1
          (gst_directsound_sink_reset s hw).2 posOk cursor = 0) ∧
    ((gst_directsound_sink_reset (gst_directsound_sink_reset s hw).1
          (gst_directsound_sink_reset s hw).2).1.current_circular_offset = 0 ∧
      (gst_directsound_sink_reset (gst_directsound_sink_reset s hw).1
          (gst_directsound_sink_reset s hw).2).1.first_buffer_after_reset = true ∧
      ∀ (posOk : Bool) (cursor : Nat),
        gst_directsound_sink_delay
          (gst_directsound_sink_reset (gst_directsound_sink_reset s hw).1
            (gst_directsound_sink_reset s hw).2).1
          (gst_directsound_sink_reset (gst_directsound_sink_reset s hw).1
            (gst_directsound_sink_reset s hw).2).2 posOk cursor = 0) :=
  ⟨⟨rfl, rfl, fun _ _ => rfl⟩, ⟨rfl, rfl, fun _ _ => rfl⟩⟩

/-- Claim C8: a write issued while the buffer is not playing triggers
looping playback exactly when it is not the designated first write after
a reset (so the first write after a reset never triggers play), and in
every case — every completed write, abandoned or not — the
first-write-after-reset flag is cleared by the end of the call. -/
theorem write_play_trigger (s : Sink) (length : Nat) (env : WriteEnv) (r : WriteRet)
    (hwr : gst_directsound_sink_write s length env = some r) :
    r.sink.first_buffer_after_reset = false ∧
    (env.status0.playing = false → r.playCalled = !s.first_buffer_after_reset) := by
  refine ⟨write_flag_cleared s length env r hwr, fun hplay => ?_⟩
  rw [write_not_playing_result s length env hplay] at hwr
  obtain rfl := Option.some.inj hwr
  rfl

theorem write_play_trigger_witness :
    (⟨4, ⟨4, 10, 2, false⟩, true, false, false⟩ : WriteRet).sink.first_buffer_after_reset
        = false ∧
    (⟨4, ⟨4, 10, 2, false⟩, true, false, false⟩ : WriteRet).playCalled = false := by
  have h := write_play_trigger ⟨0, 10, 2, true⟩ 4 ⟨true, 0, ⟨false, false⟩, [], true⟩
    ⟨4, ⟨4, 10, 2, false⟩, true, false, false⟩ (by decide)
  exact ⟨h.1, h.2 rfl⟩

/-- Claim C9 counterexample: the capacity computation runs in 32-bit
unsigned (DWORD) arithmetic, so the configuration channels = 2,
sampleRate = 2^30 (a valid rate, ≥ 1), bytesPerSample = 4 makes
`nAvgBytesPerSec = 2^30 * 4` wrap to 0 and yields capacity 0, not the
`sampleRate * bytesPerSample / 2 = 2^31` the claim demands. -/
theorem prepare_capacity_overflow_cex :
    (gst_directsound_sink_prepare ⟨0, 0, 0, false⟩ 2 (2 ^ 30) 4).buffer_size = 0 ∧
    2 ^ 30 * 4 / 2 = 2 ^ 31 ∧ (0 : Nat) ≠ 2 ^ 31 := by
  refine ⟨?_, by norm_num, by norm_num⟩
  norm_num [gst_directsound_sink_prepare, prepare_buffer_size]

/-- Claim C9 (amended): for every configuration whose sample rate fits a
DWORD, whose bytes-per-sample fits a WORD and whose product
sampleRate * bytesPerSample does not overflow 32 bits, configure
computes the buffer capacity as exactly sampleRate * bytesPerSample / 2;
in particular configure(channels = 2, sampleRate = 44100,
bytesPerSample = 4) yields capacity 88200. -/
theorem prepare_capacity_exact (s : Sink) (channels rate bps : Nat)
    (hrate : rate < 2 ^ 32) (hbps : bps < 2 ^ 16) (hprod : rate * bps < 2 ^ 32) :
    (gst_directsound_sink_prepare s channels rate bps).buffer_size =
      rate * bps / 2 := by
  show ((rate % 2 ^ 32) * (bps % 2 ^ 16) % 2 ^ 32) / 2 = rate * bps / 2
  rw [Nat.mod_eq_of_lt hrate, Nat.mod_eq_of_lt hbps, Nat.mod_eq_of_lt hprod]

theorem prepare_capacity_exact_witness :
    (gst_directsound_sink_prepare ⟨0, 0, 0, false⟩ 2 44100 4).buffer_size = 88200 := by
  have h := prepare_capacity_exact ⟨0, 0, 0, false⟩ 2 44100 4 (by norm_num)
    (by norm_num) (by norm_num)
  exact h.trans (by norm_num)

/-- Claim C10: a blocked write that is abandoned because playback
stopped during the poll loop returns 0 bytes written yet still clears
the first-write-after-reset flag; hence if the abandoned write was the
designated first write after a reset, the next write issued while the
buffer is not playing does trigger play. -/
theorem abandoned_write_enables_play (s : Sink) (l1 l2 : Nat)
    (env1 env2 : WriteEnv) (pre : List RetryObs) (o : RetryObs) (rest : List RetryObs)
    (hflag : s.first_buffer_after_reset = true)
    (hpos : env1.posOk = true) (hplay1 : env1.status0.playing = true)
    (hblocked :
      dwFreeBufferSize env1.cursor0 s.current_circular_offset s.buffer_size ≤ l1)
    (hpre : ∀ p ∈ pre, p.statusOk = true ∧ p.status.playing = true ∧
      dwFreeBufferSize p.cursor s.current_circular_offset s.buffer_size ≤ l1)
    (hretries : env1.retries = pre ++ o :: rest)
    (hok : o.statusOk = true) (hstop : o.status.playing = false)
    (hplay2 : env2.status0.playing = false) :
    gst_directsound_sink_write s l1 env1 =
      some ⟨0, { s with first_buffer_after_reset := false }, false, false, false⟩ ∧
    ∀ r2 : WriteRet,
      gst_directsound_sink_write { s with first_buffer_after_reset := false } l2
          env2 = some r2 → r2.playCalled = true := by
  refine ⟨write_abandon_eq s l1 env1 pre o rest hpos hplay1 hblocked hpre hretries
    hok hstop, fun r2 h2 => ?_⟩
  rw [write_not_playing_result _ l2 env2 hplay2] at h2
  obtain rfl := Option.some.inj h2
  rfl

theorem abandoned_write_enables_play_witness :
    gst_directsound_sink_write ⟨6, 12, 2, true⟩ 4
        ⟨true, 6, ⟨true, false⟩,
          [⟨8, true, ⟨true, false⟩⟩, ⟨8, true, ⟨false, false⟩⟩], true⟩ =
      some ⟨0, ⟨6, 12, 2, false⟩, false, false, false⟩ ∧
    (⟨4, ⟨10, 12, 2, false⟩, true, true, false⟩ : WriteRet).playCalled = true := by
  have h := abandoned_write_enables_play ⟨6, 12, 2, true⟩ 4 4
    ⟨true, 6, ⟨true, false⟩,
      [⟨8, true, ⟨true, false⟩⟩, ⟨8, true, ⟨false, false⟩⟩], true⟩
    ⟨true, 0, ⟨false, false⟩, [], true⟩
    [⟨8, true, ⟨true, false⟩⟩] ⟨8, true, ⟨false, false⟩⟩ []
    rfl rfl rfl (by decide) (by decide) rfl rfl rfl rfl
  exact ⟨h.1, h.2 ⟨4, ⟨10, 12, 2, false⟩, true, true, false⟩ (by decide)⟩

end DirectSoundSink
